import Mathlib

/-!
Shallow embedding of the end-porter reverse proxy (src/index.js).

The program keeps an in-memory routing table `mappings` (a JS object mapping
endpoint strings to ports), resolves proxy requests to a backend port via
`findEndpoint`, and mutates the table through the admin `POST /update`
handler of `guiServer`.

Strings are modelled by Lean `String`; character-level JS operations
(`trim`, `toLowerCase`, `parseInt`, `startsWith`, `slice`) are modelled over
`String.data` restricted to the ASCII range actually used by the program's
inputs.  The JS object is modelled as an association list with unique keys
in insertion order, matching JS string-key iteration order.
-/

/-- ASCII whitespace, modelling the characters `String.prototype.trim`
removes on the program's inputs. -/
def isWsChar (c : Char) : Bool :=
  c.toNat = 32 || (9 ≤ c.toNat && c.toNat ≤ 13)

/-- ASCII decimal digit. -/
def isDigitChar (c : Char) : Bool :=
  48 ≤ c.toNat && c.toNat ≤ 57

/-- ASCII lowercasing of one character, modelling `toLowerCase` on the
program's ASCII inputs. -/
def jsLowerChar (c : Char) : Char :=
  if 65 ≤ c.toNat ∧ c.toNat ≤ 90 then Char.ofNat (c.toNat + 32) else c

/-- `s.startsWith(p)` on the underlying character lists. -/
def charsStartWith : List Char → List Char → Bool
  | _, [] => true
  | [], _ :: _ => false
  | c :: cs, p :: ps => c = p && charsStartWith cs ps

/-- `String.prototype.trim`: drop whitespace from both ends. -/
def jsTrim (s : String) : String :=
  ⟨((s.data.dropWhile isWsChar).reverse.dropWhile isWsChar).reverse⟩

/-- `String.prototype.toLowerCase` (ASCII fragment). -/
def jsLower (s : String) : String :=
  ⟨s.data.map jsLowerChar⟩

/-- A character allowed after the leading slash by the endpoint regex
`/^\/[a-z0-9-_]+$/` of index.js: `[a-z0-9-_]`. -/
def isEndpointChar (c : Char) : Bool :=
  (97 ≤ c.toNat && c.toNat ≤ 122) || isDigitChar c || c.toNat = 45 || c.toNat = 95

/-- The endpoint validation of index.js:
`/^\/[a-z0-9-_]+$/.test(endpoint) && endpoint !== '/gui'`. -/
def validEndpoint (e : String) : Bool :=
  match e.data with
  | '/' :: rest => !rest.isEmpty && rest.all isEndpointChar && e ≠ "/gui"
  | _ => false

/-- Endpoint canonicalization applied by every admin action in index.js:
`data.endpoint?.trim().toLowerCase()`, rejecting a missing or
empty-after-trim value (JS falsiness), then prepending `/` if absent. -/
def canonEndpoint (raw : Option String) : Option String :=
  match raw with
  | none => none
  | some s =>
    let t := jsLower (jsTrim s)
    if t = "" then none
    else match t.data with
      | '/' :: _ => some t
      | _ => some ⟨'/' :: t.data⟩

/-- Value of a leading run of decimal digits. -/
def natOfDigits (l : List Char) : Nat :=
  l.foldl (fun n c => n * 10 + (c.toNat - 48)) 0

/-- `parseInt(x)` as used on `data.port` (decimal fragment): skip leading
whitespace, optional sign, then a nonempty run of digits; `none` models
`NaN`.  A missing port field stringifies to a non-numeric value, hence
`none`. -/
def jsParseInt (s : Option String) : Option Int :=
  match s with
  | none => none
  | some str =>
    let l := str.data.dropWhile isWsChar
    let signed : Int × List Char :=
      match l with
      | '-' :: rest => (-1, rest)
      | '+' :: rest => (1, rest)
      | _ => (1, l)
    let ds := signed.2.takeWhile isDigitChar
    if ds.isEmpty then none else some (signed.1 * (natOfDigits ds : Int))

/-! ### The routing table as a JS object (association list, unique keys) -/

/-- `mappings[k] = v`: overwrite in place if the key exists, else append. -/
def objSet : List (String × Int) → String → Int → List (String × Int)
  | [], k, v => [(k, v)]
  | (k', v') :: rest, k, v =>
    if k' = k then (k, v) :: rest else (k', v') :: objSet rest k v

/-- `mappings[k]` (also `mappings.hasOwnProperty(k)` via `isSome`). -/
def objGet : List (String × Int) → String → Option Int
  | [], _ => none
  | (k', v') :: rest, k => if k' = k then some v' else objGet rest k

/-- `delete mappings[k]`. -/
def objDelete : List (String × Int) → String → List (String × Int)
  | [], _ => []
  | (k', v') :: rest, k =>
    if k' = k then objDelete rest k else (k', v') :: objDelete rest k

/-! ### Endpoint resolution (`findEndpoint` in index.js) -/

/-- One insertion step of the stable descending-length sort. -/
def insertDesc (e : String) : List String → List String
  | [] => [e]
  | f :: fs => if f.length ≤ e.length then e :: f :: fs else f :: insertDesc e fs

/-- `Object.keys(mappings).sort((a, b) => b.length - a.length)`: stable sort
by descending string length (ties keep insertion order). -/
def sortDescLen : List String → List String
  | [] => []
  | e :: rest => insertDesc e (sortDescLen rest)

/-- `path === endpoint || path.startsWith(endpoint + '/')`. -/
def pathMatches (path e : String) : Bool :=
  path == e || charsStartWith path.data (e ++ "/").data

/-- The scan `for (const endpoint of sortedEndpoints) { if ... return }`. -/
def firstMatch (path : String) : List String → Option String
  | [] => none
  | e :: es => if pathMatches path e then some e else firstMatch path es

/-- Result of `findEndpoint`: `{ endpoint, port, matchedByPath }`. -/
structure MatchResult where
  endpoint : String
  port : Int
  matchedByPath : Bool
  deriving DecidableEq, Repr

/-- Scan an http(s) URL for the `://` separating scheme from authority;
`none` models the `new URL(referer)` constructor throwing. -/
def afterSchemeSep : List Char → Option (List Char)
  | [] => none
  | ':' :: '/' :: '/' :: rest => some rest
  | _ :: rest => afterSchemeSep rest

/-- `new URL(referer).pathname` for the well-formed http URLs the program
sees: the part of the URL after the authority, up to any query or fragment,
defaulting to `/`. -/
def urlPathname (url : String) : Option String :=
  match afterSchemeSep url.data with
  | none => none
  | some rest =>
    let tail := rest.dropWhile (fun c => !(c = '/' || c = '?' || c = '#'))
    match tail with
    | '/' :: _ => some ⟨tail.takeWhile (fun c => !(c = '?' || c = '#'))⟩
    | _ => some "/"

/-- `findEndpoint(path, referer)` of index.js: sort the table's keys by
descending length, scan the request path for a direct match, then — when a
referer is present and parses as a URL — scan the referer's pathname. -/
def findEndpoint (m : List (String × Int)) (path referer : String) :
    Option MatchResult :=
  match firstMatch path (sortDescLen (m.map Prod.fst)) with
  | some e => some ⟨e, (objGet m e).getD 0, true⟩
  | none =>
    if referer = "" then none
    else
      match urlPathname referer with
      | none => none
      | some rp =>
        match firstMatch rp (sortDescLen (m.map Prod.fst)) with
        | some e => some ⟨e, (objGet m e).getD 0, false⟩
        | none => none

/-! ### The proxy server handler -/

/-- Observable outcome of the proxy handler for one request:
`notFound` is the 404 text/plain response, `forward port targetPath` is the
proxied request to `http://localhost:<port><targetPath>`. -/
inductive ProxyResponse where
  | notFound
  | forward (port : Int) (targetPath : String)
  deriving DecidableEq, Repr

/-- The routing part of `proxyServer`'s request handler: reject `/gui` and
anything under it, resolve via `findEndpoint`, and compute the forwarded
path — stripped of the endpoint on a direct-path match
(`path.slice(endpoint.length) || '/'`), unchanged on a referer match. -/
def proxyHandle (m : List (String × Int)) (path referer : String) :
    ProxyResponse :=
  if path == "/gui" || charsStartWith path.data "/gui/".data then .notFound
  else
    match findEndpoint m path referer with
    | some mr =>
      let targetPath :=
        if mr.matchedByPath then
          let r : String := ⟨path.data.drop mr.endpoint.length⟩
          if r = "" then "/" else r
        else path
      .forward mr.port targetPath
    | none => .notFound

/-! ### The admin (GUI) server -/

/-- The parsed JSON body of `POST /update`; absent fields are `none`.  The
`port` field holds the string the JS engine coerces `data.port` to before
`parseInt` (a JSON number appears as its decimal representation). -/
structure UpdateData where
  action : Option String
  endpoint : Option String
  port : Option String
  oldEndpoint : Option String
  newEndpoint : Option String
  deriving Repr

/-- Admin responses of the `/update` handler:
`ok` is 200 `OK`; `invalidEndpoint` is 400 `Invalid endpoint`;
`invalidPort` is 400 `Invalid port`; `invalidNewEndpoint` is 400
`Invalid new endpoint`; `oldNotFound` is 404 `Old endpoint not found`. -/
inductive AdminResp where
  | ok
  | invalidEndpoint
  | invalidPort
  | invalidNewEndpoint
  | oldNotFound
  deriving DecidableEq, Repr

/-- Outcome of one `/update` request: the response, the routing table
afterwards, and whether `saveMappings()` was reached. -/
structure UpdateOutcome where
  resp : AdminResp
  table : List (String × Int)
  saved : Bool
  deriving DecidableEq, Repr

/-- The `POST /update` handler of `guiServer` after a successful
`JSON.parse`: validates and applies `add` / `delete` / `rename` against the
table, then persists; an unrecognized action falls through to
`saveMappings()` and 200 `OK`. -/
def handleUpdate (d : UpdateData) (m : List (String × Int)) : UpdateOutcome :=
  if d.action = some "add" then
    match canonEndpoint d.endpoint with
    | none => ⟨.invalidEndpoint, m, false⟩
    | some e =>
      if !validEndpoint e then ⟨.invalidEndpoint, m, false⟩
      else
        match jsParseInt d.port with
        | none => ⟨.invalidPort, m, false⟩
        | some p =>
          if p < 1 || 65535 < p then ⟨.invalidPort, m, false⟩
          else ⟨.ok, objSet m e p, true⟩
  else if d.action = some "delete" then
    match canonEndpoint d.endpoint with
    | none => ⟨.invalidEndpoint, m, false⟩
    | some e => ⟨.ok, objDelete m e, true⟩
  else if d.action = some "rename" then
    match canonEndpoint d.oldEndpoint, canonEndpoint d.newEndpoint with
    | some oldE, some newE =>
      if !validEndpoint newE then ⟨.invalidNewEndpoint, m, false⟩
      else
        match objGet m oldE with
        | none => ⟨.oldNotFound, m, false⟩
        | some v => ⟨.ok, objDelete (objSet m newE v) oldE, true⟩
    | _, _ => ⟨.invalidEndpoint, m, false⟩
  else ⟨.ok, m, true⟩

/-- Which handler a request to `guiServer` reaches: `page` is the 200
text/html response carrying the static admin page, `getStatus` the JSON
table+liveness read, `update` the mutation handler, `notFound` the 404. -/
inductive GuiResponse where
  | page
  | getStatus
  | update
  | notFound
  deriving DecidableEq, Repr

/-- The routing of `guiServer`'s request handler in index.js. -/
def guiRoute (method path : String) : GuiResponse :=
  if path = "/" || path = "/gui" then .page
  else if (path = "/get" || path = "/gui/get") && method = "GET" then .getStatus
  else if (path = "/update" || path = "/gui/update") && method = "POST" then .update
  else .notFound

/-! ### Helper lemmas -/

theorem dropWhile_all_false {α} (p : α → Bool) (l : List α)
    (h : ∀ c ∈ l, p c = false) : l.dropWhile p = l := by
  cases l with
  | nil => rfl
  | cons a as =>
    rw [List.dropWhile_cons, h a (List.mem_cons_self a as)]
    simp

theorem map_all_fix {α} (f : α → α) (l : List α)
    (h : ∀ c ∈ l, f c = c) : l.map f = l := by
  induction l with
  | nil => rfl
  | cons a as ih =>
    rw [List.map_cons, h a (List.mem_cons_self a as),
      ih (fun c hc => h c (List.mem_cons_of_mem a hc))]

theorem isEndpointChar_not_ws (c : Char) (h : isEndpointChar c = true) :
    isWsChar c = false := by
  simp only [isEndpointChar, isDigitChar, Bool.or_eq_true, Bool.and_eq_true,
    decide_eq_true_eq] at h
  simp only [isWsChar, Bool.or_eq_false_iff, Bool.and_eq_false_iff,
    decide_eq_false_iff_not]
  omega

theorem isEndpointChar_lower_fix (c : Char) (h : isEndpointChar c = true) :
    jsLowerChar c = c := by
  simp only [isEndpointChar, isDigitChar, Bool.or_eq_true, Bool.and_eq_true,
    decide_eq_true_eq] at h
  unfold jsLowerChar
  rw [if_neg]
  omega

theorem validEndpoint_parts (e : String) (h : validEndpoint e = true) :
    ∃ rest, e.data = '/' :: rest ∧ rest.all isEndpointChar = true := by
  unfold validEndpoint at h
  split at h
  · next rest heq =>
    refine ⟨rest, heq, ?_⟩
    simp only [Bool.and_eq_true] at h
    exact h.1.2
  · exact absurd h (by simp)

theorem jsTrim_fix (e : String) (h : ∀ c ∈ e.data, isWsChar c = false) :
    jsTrim e = e := by
  unfold jsTrim
  rw [dropWhile_all_false _ _ h,
    dropWhile_all_false _ _ (fun c hc => h c (List.mem_reverse.mp hc)),
    List.reverse_reverse]

theorem jsLower_fix (e : String) (h : ∀ c ∈ e.data, jsLowerChar c = c) :
    jsLower e = e := by
  unfold jsLower
  rw [map_all_fix _ _ h]

theorem canonEndpoint_of_valid (e : String) (h : validEndpoint e = true) :
    canonEndpoint (some e) = some e := by
  obtain ⟨rest, heq, hall⟩ := validEndpoint_parts e h
  have hmem : ∀ c ∈ e.data, isEndpointChar c = true ∨ c = '/' := by
    intro c hc
    rw [heq] at hc
    rcases List.mem_cons.mp hc with hc | hc
    · exact Or.inr hc
    · exact Or.inl (List.all_eq_true.mp hall c hc)
  have htrim : jsTrim e = e := by
    refine jsTrim_fix e (fun c hc => ?_)
    rcases hmem c hc with h1 | h1
    · exact isEndpointChar_not_ws c h1
    · rw [h1]; decide
  have hlow : jsLower e = e := by
    refine jsLower_fix e (fun c hc => ?_)
    rcases hmem c hc with h1 | h1
    · exact isEndpointChar_lower_fix c h1
    · rw [h1]; decide
  have hne : e ≠ "" := by
    intro h0
    rw [h0] at heq
    simp at heq
  unfold canonEndpoint
  simp only [htrim, hlow]
  rw [if_neg hne, heq]
  split
  · rfl
  · rename_i hcon
    exact absurd rfl (hcon rest)

theorem objGet_objSet_self (m : List (String × Int)) (k : String) (v : Int) :
    objGet (objSet m k v) k = some v := by
  induction m with
  | nil => simp [objSet, objGet]
  | cons p rest ih =>
    obtain ⟨a, b⟩ := p
    by_cases ha : a = k
    · simp [objSet, objGet, ha]
    · simp [objSet, objGet, ha, ih]

theorem objGet_objSet_other (m : List (String × Int)) (k k' : String) (v : Int)
    (h : k' ≠ k) : objGet (objSet m k v) k' = objGet m k' := by
  induction m with
  | nil => simp [objSet, objGet, Ne.symm h]
  | cons p rest ih =>
    obtain ⟨a, b⟩ := p
    by_cases ha : a = k
    · have hak : a ≠ k' := fun hh => h (hh ▸ ha.symm ▸ rfl)
      simp [objSet, objGet, ha, hak, Ne.symm h]
    · simp [objSet, objGet, ha, ih]

theorem objGet_objDelete_self (m : List (String × Int)) (k : String) :
    objGet (objDelete m k) k = none := by
  induction m with
  | nil => rfl
  | cons p rest ih =>
    obtain ⟨a, b⟩ := p
    by_cases ha : a = k
    · simp [objDelete, ha, ih]
    · simp [objDelete, objGet, ha, ih]

theorem objGet_objDelete_other (m : List (String × Int)) (k k' : String)
    (h : k' ≠ k) : objGet (objDelete m k') k = objGet m k := by
  induction m with
  | nil => rfl
  | cons p rest ih =>
    obtain ⟨a, b⟩ := p
    by_cases ha : a = k'
    · simp [objDelete, objGet, ha, h, ih]
    · simp [objDelete, objGet, ha, ih]

theorem findEndpoint_direct (m : List (String × Int)) (path referer e : String)
    (h : firstMatch path (sortDescLen (m.map Prod.fst)) = some e) :
    findEndpoint m path referer = some ⟨e, (objGet m e).getD 0, true⟩ := by
  unfold findEndpoint
  rw [h]

theorem proxyHandle_direct (m : List (String × Int)) (path referer e : String)
    (hg : (path == "/gui" || charsStartWith path.data "/gui/".data) = false)
    (h : firstMatch path (sortDescLen (m.map Prod.fst)) = some e) :
    proxyHandle m path referer =
      .forward ((objGet m e).getD 0)
        (if (⟨path.data.drop e.length⟩ : String) = "" then "/"
         else ⟨path.data.drop e.length⟩) := by
  unfold proxyHandle
  rw [findEndpoint_direct m path referer e h, hg]
  simp

/-! ### The claims -/

/-- Claim C1 (confirmed): with endpoints `/app` → 8080 and `/app/api` → 9090
stored (in either insertion order), the request path `/app/api/users`
resolves as a direct-path match to port 9090 with forwarded remainder
`/users`, and `/app/home` resolves as a direct-path match to port 8080 with
forwarded remainder `/home` — the longest stored textual prefix wins and
the matched prefix is stripped, for every referer. -/
theorem c1_longest_endpoint_wins (m : List (String × Int)) (referer : String)
    (h : m = [("/app", 8080), ("/app/api", 9090)] ∨
         m = [("/app/api", 9090), ("/app", 8080)]) :
    findEndpoint m "/app/api/users" referer = some ⟨"/app/api", 9090, true⟩ ∧
    proxyHandle m "/app/api/users" referer = .forward 9090 "/users" ∧
    findEndpoint m "/app/home" referer = some ⟨"/app", 8080, true⟩ ∧
    proxyHandle m "/app/home" referer = .forward 8080 "/home" := by
  rcases h with h | h <;> subst h
  · refine ⟨?_, ?_, ?_, ?_⟩
    · rw [findEndpoint_direct _ _ referer "/app/api" (by decide)]
      decide
    · rw [proxyHandle_direct _ _ referer "/app/api" (by decide) (by decide)]
      decide
    · rw [findEndpoint_direct _ _ referer "/app" (by decide)]
      decide
    · rw [proxyHandle_direct _ _ referer "/app" (by decide) (by decide)]
      decide
  · refine ⟨?_, ?_, ?_, ?_⟩
    · rw [findEndpoint_direct _ _ referer "/app/api" (by decide)]
      decide
    · rw [proxyHandle_direct _ _ referer "/app/api" (by decide) (by decide)]
      decide
    · rw [findEndpoint_direct _ _ referer "/app" (by decide)]
      decide
    · rw [proxyHandle_direct _ _ referer "/app" (by decide) (by decide)]
      decide

/-- Witness for C1 at the first insertion order and an empty referer. -/
theorem c1_longest_endpoint_wins_witness :
    findEndpoint [("/app", 8080), ("/app/api", 9090)] "/app/api/users" "" =
      some ⟨"/app/api", 9090, true⟩ ∧
    proxyHandle [("/app", 8080), ("/app/api", 9090)] "/app/api/users" "" =
      .forward 9090 "/users" ∧
    findEndpoint [("/app", 8080), ("/app/api", 9090)] "/app/home" "" =
      some ⟨"/app", 8080, true⟩ ∧
    proxyHandle [("/app", 8080), ("/app/api", 9090)] "/app/home" "" =
      .forward 8080 "/home" :=
  c1_longest_endpoint_wins _ "" (Or.inl rfl)

/-- Claim C2 (confirmed): a proxy request whose path is `/gui` or starts
with `/gui/` gets the 404 response, for every routing table and every
referer. -/
theorem c2_gui_blocked_on_proxy (m : List (String × Int)) (path referer : String)
    (h : path = "/gui" ∨ charsStartWith path.data "/gui/".data = true) :
    proxyHandle m path referer = .notFound := by
  have hc : (path == "/gui" || charsStartWith path.data "/gui/".data) = true := by
    rcases h with h | h
    · subst h
      decide
    · rw [h, Bool.or_true]
  unfold proxyHandle
  rw [hc]
  simp

/-- Witness for C2: `/gui/admin` is blocked even when the table maps `/gui`
and other endpoints. -/
theorem c2_gui_blocked_on_proxy_witness :
    proxyHandle [("/gui", 9999), ("/app", 8080)] "/gui/admin" "" = .notFound :=
  c2_gui_blocked_on_proxy _ "/gui/admin" "" (Or.inr (by decide))

/-- Counterexample to claim C3 as stated: in the `add` handler the endpoint
check runs before the port check, so a request whose port is out of range
but whose endpoint is also invalid is rejected with 400 `Invalid endpoint`,
not 400 `Invalid port`. -/
theorem c3_endpoint_checked_before_port :
    jsParseInt (some "70000") = some 70000 ∧
    handleUpdate ⟨some "add", some "My App!", some "70000", none, none⟩ [] =
      ⟨.invalidEndpoint, [], false⟩ ∧
    AdminResp.invalidEndpoint ≠ AdminResp.invalidPort := by decide

/-- Claim C3 (amended): for every `add` request whose endpoint
canonicalizes to a valid endpoint and whose port field does not parse (via
`parseInt`) to an integer in 1–65535 — out of range or non-numeric — the
admin handler rejects it with 400 `Invalid port` and the routing table is
unchanged (and not re-persisted). -/
theorem c3_invalid_port_rejected (d : UpdateData) (m : List (String × Int))
    (e : String)
    (ha : d.action = some "add")
    (he : canonEndpoint d.endpoint = some e)
    (hv : validEndpoint e = true)
    (hp : ∀ p : Int, jsParseInt d.port = some p → p < 1 ∨ 65535 < p) :
    handleUpdate d m = ⟨.invalidPort, m, false⟩ := by
  unfold handleUpdate
  rw [if_pos ha]
  simp only [he, hv, Bool.not_true]
  cases hjp : jsParseInt d.port with
  | none => simp
  | some p =>
    have hc : (decide (p < 1) || decide (65535 < p)) = true := by
      rcases hp p hjp with h1 | h1 <;> simp [h1]
    simp [hc]

/-- Witness for the amended C3: adding `/app` with port `70000` yields 400
`Invalid port` and leaves the empty table empty. -/
theorem c3_invalid_port_rejected_witness :
    handleUpdate ⟨some "add", some "/app", some "70000", none, none⟩ [] =
      ⟨.invalidPort, [], false⟩ :=
  c3_invalid_port_rejected _ [] "/app" rfl (by decide) (by decide)
    (by
      intro p hp
      have h70 : jsParseInt (some "70000") = some 70000 := by decide
      rw [h70, Option.some_inj] at hp
      omega)

/-- Counterexample to claim C4 as stated: the rename handler validates the
new endpoint before looking up the old one, so a rename whose old endpoint
is absent but whose new endpoint is invalid is rejected with 400
`Invalid new endpoint`, not 404. -/
theorem c4_new_endpoint_checked_first :
    canonEndpoint (some "/missing") = some "/missing" ∧
    objGet [] "/missing" = none ∧
    handleUpdate ⟨some "rename", none, none, some "/missing", some "My App!"⟩ [] =
      ⟨.invalidNewEndpoint, [], false⟩ ∧
    AdminResp.invalidNewEndpoint ≠ AdminResp.oldNotFound := by decide

/-- Claim C4 (amended): for every rename request whose old and new
endpoints both canonicalize, whose canonicalized new endpoint passes
validation, and whose canonicalized old endpoint is absent from the table,
the admin handler responds 404 `Old endpoint not found` and the table is
unchanged (and not re-persisted). -/
theorem c4_rename_missing_old_not_found (d : UpdateData)
    (m : List (String × Int)) (oldE newE : String)
    (ha : d.action = some "rename")
    (ho : canonEndpoint d.oldEndpoint = some oldE)
    (hn : canonEndpoint d.newEndpoint = some newE)
    (hv : validEndpoint newE = true)
    (habs : objGet m oldE = none) :
    handleUpdate d m = ⟨.oldNotFound, m, false⟩ := by
  unfold handleUpdate
  rw [ha, if_neg (by decide), if_neg (by decide), if_pos rfl]
  simp [ho, hn, hv, habs]

/-- Witness for the amended C4: renaming the absent `/missing` to the valid
`/fresh` yields 404 and leaves the table unchanged. -/
theorem c4_rename_missing_old_not_found_witness :
    handleUpdate ⟨some "rename", none, none, some "/missing", some "/fresh"⟩
      [("/app", 8080)] = ⟨.oldNotFound, [("/app", 8080)], false⟩ :=
  c4_rename_missing_old_not_found _ _ "/missing" "/fresh" rfl (by decide)
    (by decide) (by decide) (by decide)

/-- Claim C5 (confirmed): for every valid endpoint `e` and every port `p`
in 1–65535, an admin `add` request carrying `e` and a port field parsing to
`p` succeeds with 200 `OK`, stores `(e, p)` in the table, and a subsequent
lookup of `e` returns `p`. -/
theorem c5_set_then_get (m : List (String × Int)) (e ps : String) (p : Int)
    (hv : validEndpoint e = true) (h1 : 1 ≤ p) (h2 : p ≤ 65535)
    (hp : jsParseInt (some ps) = some p) :
    handleUpdate ⟨some "add", some e, some ps, none, none⟩ m =
      ⟨.ok, objSet m e p, true⟩ ∧
    objGet (objSet m e p) e = some p := by
  refine ⟨?_, objGet_objSet_self m e p⟩
  unfold handleUpdate
  rw [if_pos rfl]
  have hc : (decide (p < 1) || decide (65535 < p)) = false := by
    simp only [Bool.or_eq_false_iff, decide_eq_false_iff_not, not_lt]
    exact ⟨h1, h2⟩
  simp [canonEndpoint_of_valid e hv, hv, hp, hc]

/-- Witness for C5: adding `/app` with port `8080` and looking it up. -/
theorem c5_set_then_get_witness :
    handleUpdate ⟨some "add", some "/app", some "8080", none, none⟩ [] =
      ⟨.ok, objSet [] "/app" 8080, true⟩ ∧
    objGet (objSet [] "/app" 8080) "/app" = some 8080 :=
  c5_set_then_get [] "/app" "8080" 8080 (by decide) (by decide) (by decide)
    (by decide)

/-- Claim C6 (confirmed): for valid endpoints `a ≠ b` with `a` present and
holding port `p`, the rename succeeds and afterwards `a` is absent and `b`
holds `p`. -/
theorem c6_rename_moves_port (m : List (String × Int)) (a b : String) (p : Int)
    (hva : validEndpoint a = true) (hvb : validEndpoint b = true)
    (hab : a ≠ b) (hp : objGet m a = some p) :
    handleUpdate ⟨some "rename", none, none, some a, some b⟩ m =
      ⟨.ok, objDelete (objSet m b p) a, true⟩ ∧
    objGet (objDelete (objSet m b p) a) a = none ∧
    objGet (objDelete (objSet m b p) a) b = some p := by
  refine ⟨?_, objGet_objDelete_self _ a, ?_⟩
  · unfold handleUpdate
    rw [if_neg (by simp), if_neg (by simp), if_pos rfl]
    simp [canonEndpoint_of_valid a hva, canonEndpoint_of_valid b hvb, hvb, hp]
  · rw [objGet_objDelete_other (objSet m b p) b a hab, objGet_objSet_self]

/-- Witness for C6: renaming `/app` (port 8080) to `/web`. -/
theorem c6_rename_moves_port_witness :
    handleUpdate ⟨some "rename", none, none, some "/app", some "/web"⟩
      [("/app", 8080)] =
      ⟨.ok, objDelete (objSet [("/app", 8080)] "/web" 8080) "/app", true⟩ ∧
    objGet (objDelete (objSet [("/app", 8080)] "/web" 8080) "/app") "/app" =
      none ∧
    objGet (objDelete (objSet [("/app", 8080)] "/web" 8080) "/app") "/web" =
      some 8080 :=
  c6_rename_moves_port [("/app", 8080)] "/app" "/web" 8080 (by decide)
    (by decide) (by decide) (by decide)

/-- Claim C7 (confirmed): with only `/app` → 8080 stored, a request for
`/assets/style.css` with referer `http://host/app/page` resolves to port
8080 as a referer-derived match and is forwarded with its path unchanged. -/
theorem c7_referer_fallback_keeps_path :
    findEndpoint [("/app", 8080)] "/assets/style.css" "http://host/app/page" =
      some ⟨"/app", 8080, false⟩ ∧
    proxyHandle [("/app", 8080)] "/assets/style.css" "http://host/app/page" =
      .forward 8080 "/assets/style.css" := by decide

/-- Claim C8 (confirmed): the admin server serves the administrative HTML
page (200 text/html) for `GET /` and for `GET /gui`. -/
theorem c8_admin_page_served :
    guiRoute "GET" "/" = .page ∧ guiRoute "GET" "/gui" = .page := by decide

/-- Claim C9 (confirmed): a rename whose canonicalized old and new
endpoints are the same valid endpoint `a`, with `a` present, responds 200
`OK` but removes `a` from the table entirely — the copy-then-delete of
rename deletes the single shared key. -/
theorem c9_rename_self_deletes (m : List (String × Int)) (a : String) (p : Int)
    (hv : validEndpoint a = true) (hp : objGet m a = some p) :
    handleUpdate ⟨some "rename", none, none, some a, some a⟩ m =
      ⟨.ok, objDelete (objSet m a p) a, true⟩ ∧
    objGet (objDelete (objSet m a p) a) a = none := by
  refine ⟨?_, objGet_objDelete_self _ a⟩
  unfold handleUpdate
  rw [if_neg (by simp), if_neg (by simp), if_pos rfl]
  simp [canonEndpoint_of_valid a hv, hv, hp]

/-- Witness for C9: renaming `/app` to itself removes it. -/
theorem c9_rename_self_deletes_witness :
    handleUpdate ⟨some "rename", none, none, some "/app", some "/app"⟩
      [("/app", 8080)] =
      ⟨.ok, objDelete (objSet [("/app", 8080)] "/app" 8080) "/app", true⟩ ∧
    objGet (objDelete (objSet [("/app", 8080)] "/app" 8080) "/app") "/app" =
      none :=
  c9_rename_self_deletes [("/app", 8080)] "/app" 8080 (by decide) (by decide)

/-- Claim C10 (confirmed): a well-formed `/update` body whose action is
none of `add`, `delete`, `rename` gets 200 `OK`, leaves the table
unchanged, and still reaches `saveMappings()`. -/
theorem c10_unknown_action_saves (d : UpdateData) (m : List (String × Int))
    (h1 : d.action ≠ some "add") (h2 : d.action ≠ some "delete")
    (h3 : d.action ≠ some "rename") :
    handleUpdate d m = ⟨.ok, m, true⟩ := by
  unfold handleUpdate
  rw [if_neg h1, if_neg h2, if_neg h3]

/-- Witness for C10: an unrecognized action `noop` on a one-entry table. -/
theorem c10_unknown_action_saves_witness :
    handleUpdate ⟨some "noop", none, none, none, none⟩ [("/app", 8080)] =
      ⟨.ok, [("/app", 8080)], true⟩ :=
  c10_unknown_action_saves _ _ (by decide) (by decide) (by decide)
